import Mathlib

/-!
Shallow embedding of the inventory HTTP service in src/main.js.

The service keeps an in-memory list of items (id, inventory_name,
description, photoFilename), persisted as JSON after every mutation.
Each Express handler is modelled as a pure function from the current
collection (plus the request fields) to a result record carrying the
HTTP status, the response body, the new collection, and whether
saveInventory was called. Blob (photo file) existence on disk is
modelled by a boolean predicate on filenames.
-/

namespace InventoryService

/-- An inventory item as stored in memory and in inventory.json
(src/main.js lines 283-288): fields id, inventory_name, description,
photoFilename (null when the item has no photo). -/
structure Item where
  id : String
  inventory_name : String
  description : String
  photoFilename : Option String
  deriving DecidableEq, Repr

/-- JS truthiness of a nullable string value: undefined, null and the
empty string are falsy, every other string is truthy. -/
def jsStrTruthy : Option String → Bool
  | none => false
  | some s => !(s == "")

/-- Decimal parse of a string: some value when every character is a
decimal digit (and the string is nonempty), none otherwise. -/
def decNat? (s : String) : Option Nat :=
  if s.data = [] then none
  else if s.data.all Char.isDigit then
    some (s.data.foldl (fun a c => a * 10 + (c.toNat - '0'.toNat)) 0)
  else none

/-- JS Number(s) on the strings this program can store in the id field:
the empty string converts to 0, a string of decimal digits converts to
its numeric value, and any other string (for example letters, or the
string NaN itself) converts to NaN, modelled here as none. -/
def jsNumber (s : String) : Option Nat :=
  if s = "" then some 0 else decNat? s

/-- ASCII whitespace, as relevant to the names this service receives. -/
def isWS (c : Char) : Bool := c == ' ' || c == '\t' || c == '\n' || c == '\r'

/-- JS String.prototype.trim: strip whitespace from both ends. -/
def jsTrim (s : String) : String :=
  ⟨((s.data.dropWhile isWS).reverse.dropWhile isWS).reverse⟩

/-- JS Math.max on possibly-NaN values: NaN is absorbing. -/
def jsMax : Option Nat → Option Nat → Option Nat
  | some a, some b => some (max a b)
  | _, _ => none

/-- generateId (src/main.js lines 48-51): reduce over the collection
with Math.max of Number(item.id) starting from 0, then render maxId + 1
back to a string with String(...). String(NaN) is the string NaN. -/
def generateId (inventory : List Item) : String :=
  match inventory.foldl (fun acc item => jsMax acc (jsNumber item.id)) (some 0) with
  | some maxId => Nat.repr (maxId + 1)
  | none => "NaN"

/-- URL of an item photo as every handler computes it:
protocol + :// + host + /inventory/ + id + /photo. -/
def photoURL (protocol host id : String) : String :=
  protocol ++ "://" ++ host ++ "/inventory/" ++ id ++ "/photo"

/-- The item DTO every JSON endpoint returns: id, inventory_name,
description, and photo_url, the latter computed per request and null
when photoFilename is falsy. -/
structure ItemDTO where
  id : String
  inventory_name : String
  description : String
  photo_url : Option String
  deriving DecidableEq, Repr

/-- The DTO built from a stored item, as in the GET handlers. -/
def itemToDTO (protocol host : String) (item : Item) : ItemDTO :=
  { id := item.id
    inventory_name := item.inventory_name
    description := item.description
    photo_url :=
      if jsStrTruthy item.photoFilename then some (photoURL protocol host item.id)
      else none }

/-- Outcome of a handler that may answer with an item DTO: HTTP status,
optional DTO body, the collection after the request, and whether
saveInventory was called. -/
structure ApiResult where
  status : Nat
  body : Option ItemDTO
  inventory : List Item
  saved : Bool
  deriving DecidableEq, Repr

/-- Fields of a POST /register multipart request: inventory_name and
description (none when the field is absent), and the generated filename
of the uploaded photo (none when no file was sent). -/
structure RegisterRequest where
  inventory_name : Option String
  description : Option String
  file : Option String
  deriving DecidableEq, Repr

/-- POST /register (src/main.js lines 273-303): reject with 400 when
inventory_name is falsy or trims to the empty string; otherwise append
an item with a generated id, save, and answer 201 with the DTO. -/
def postRegister (protocol host : String) (inv : List Item) (req : RegisterRequest) :
    ApiResult :=
  match req.inventory_name with
  | none => ⟨400, none, inv, false⟩
  | some name =>
    if name == "" || jsTrim name == "" then ⟨400, none, inv, false⟩
    else
      let id := generateId inv
      let photoFilename := req.file
      let item : Item := ⟨id, name, req.description.getD "", photoFilename⟩
      let photoUrl :=
        if jsStrTruthy photoFilename then some (photoURL protocol host id) else none
      ⟨201, some ⟨id, name, item.description, photoUrl⟩, inv ++ [item], true⟩

/-- GET /inventory/:id (src/main.js lines 324-340): 404 when no item
matches, otherwise 200 with the DTO of the first match. -/
def getInventoryId (protocol host : String) (inv : List Item) (rid : String) :
    Nat × Option ItemDTO :=
  match inv.find? (fun i => i.id == rid) with
  | none => (404, none)
  | some item => (200, some (itemToDTO protocol host item))

/-- JSON body of a PUT /inventory/:id request; none models an absent
(undefined) field. -/
structure UpdateBody where
  inventory_name : Option String
  description : Option String
  deriving DecidableEq, Repr

/-- The in-place mutation PUT /inventory/:id performs on the matched
item: each field is overwritten only when supplied. -/
def applyUpdate (body : UpdateBody) (item : Item) : Item :=
  { item with
    inventory_name := body.inventory_name.getD item.inventory_name
    description := body.description.getD item.description }

/-- Mutating the first item whose id matches rid, leaving the rest of
the collection untouched: this is how an in-place mutation of the
object returned by Array.prototype.find reads on an immutable list. -/
def updateFirst (inv : List Item) (rid : String) (f : Item → Item) : List Item :=
  match inv with
  | [] => []
  | i :: rest => if i.id == rid then f i :: rest else i :: updateFirst rest rid f

/-- PUT /inventory/:id (src/main.js lines 342-369): 404 when no item
matches; otherwise overwrite only the supplied fields, save, and answer
200 with the updated DTO. -/
def putInventoryId (protocol host : String) (inv : List Item) (rid : String)
    (body : UpdateBody) : ApiResult :=
  match inv.find? (fun i => i.id == rid) with
  | none => ⟨404, none, inv, false⟩
  | some item =>
    ⟨200, some (itemToDTO protocol host (applyUpdate body item)),
      updateFirst inv rid (applyUpdate body), true⟩

/-- Outcome of DELETE /inventory/:id: status, collection after the
request, whether saveInventory was called, and the filename whose
best-effort unlink was requested (none when no unlink was issued). -/
structure DeleteResult where
  status : Nat
  inventory : List Item
  saved : Bool
  unlinked : Option String
  deriving DecidableEq, Repr

/-- Removing the first item whose id matches rid, as
inventory.splice(findIndex, 1) does. -/
def removeFirst (inv : List Item) (rid : String) : List Item :=
  match inv with
  | [] => []
  | i :: rest => if i.id == rid then rest else i :: removeFirst rest rid

/-- DELETE /inventory/:id (src/main.js lines 371-387): 404 when no item
matches, leaving the collection untouched and unsaved; otherwise splice
the item out, request a best-effort unlink of its photo when it has a
truthy photoFilename, save, and answer 200. -/
def deleteInventoryId (inv : List Item) (rid : String) : DeleteResult :=
  match inv.find? (fun i => i.id == rid) with
  | none => ⟨404, inv, false, none⟩
  | some removed =>
    ⟨200, removeFirst inv rid, true,
      if jsStrTruthy removed.photoFilename then removed.photoFilename else none⟩

/-- GET /inventory/:id/photo (src/main.js lines 390-404): 404 when no
item matches or its photoFilename is falsy or the referenced file does
not exist on disk; otherwise 200 serving that file. blobExists models
fs.existsSync on the photos directory. -/
def getPhoto (blobExists : String → Bool) (inv : List Item) (rid : String) :
    Nat × Option String :=
  match inv.find? (fun i => i.id == rid) with
  | none => (404, none)
  | some item =>
    if !jsStrTruthy item.photoFilename then (404, none)
    else
      let f := item.photoFilename.getD ""
      if blobExists f then (200, some f) else (404, none)

/-- Outcome of PUT /inventory/:id/photo: status, collection after the
request, and whether saveInventory was called. -/
structure PhotoPutResult where
  status : Nat
  inventory : List Item
  saved : Bool
  deriving DecidableEq, Repr

/-- PUT /inventory/:id/photo (src/main.js lines 406-431): the
item-existence check runs first and answers 404; only then is a missing
uploaded file rejected with 400; otherwise the photoFilename of the
matched item is replaced, the collection saved, and 200 returned. -/
def putPhoto (inv : List Item) (rid : String) (file : Option String) : PhotoPutResult :=
  match inv.find? (fun i => i.id == rid) with
  | none => ⟨404, inv, false⟩
  | some _ =>
    match file with
    | none => ⟨400, inv, false⟩
    | some f => ⟨200, updateFirst inv rid (fun item => { item with photoFilename := some f }), true⟩

/-- The comparison item.id === id of the search handler, where the id
field of the body may be absent (undefined): strict equality of a
string against undefined is false. -/
def searchPred (rid : Option String) (i : Item) : Bool :=
  match rid with
  | none => false
  | some s => i.id == s

/-- POST /search (src/main.js lines 450-476): find the item whose id
strictly equals the id field of the body (an absent field, modelled as
none, equals no stored id, so the search falls through to 404). When
has_photo is truthy and the item has a truthy photoFilename, the stored
description is overwritten with description + newline + Photo: + URL,
the collection is saved, and the mutated description is returned. -/
def postSearch (protocol host : String) (inv : List Item) (rid : Option String)
    (hasPhoto : Option String) : ApiResult :=
  match inv.find? (searchPred rid) with
  | none => ⟨404, none, inv, false⟩
  | some item =>
    let photoUrl :=
      if jsStrTruthy item.photoFilename then some (photoURL protocol host item.id) else none
    if jsStrTruthy hasPhoto && photoUrl.isSome then
      let d := item.description ++ "\nPhoto: " ++ photoUrl.getD ""
      ⟨200, some ⟨item.id, item.inventory_name, d, photoUrl⟩,
        updateFirst inv item.id (fun it => { it with description := d }), true⟩
    else
      ⟨200, some ⟨item.id, item.inventory_name, item.description, photoUrl⟩, inv, false⟩

/-- methodGuard (src/main.js lines 263-270): answer 405 when the request
method is not in the allow-list for the route, else fall through. -/
def methodGuard (allowed : List String) (method : String) : Option Nat :=
  if allowed.contains method then none else some 405

/-- The /search route stack (src/main.js line 449):
app.all with methodGuard allowing only POST, then the POST handler. -/
def searchRoute (protocol host : String) (inv : List Item) (method : String)
    (rid hasPhoto : Option String) : ApiResult :=
  match methodGuard ["POST"] method with
  | some s => ⟨s, none, inv, false⟩
  | none => postSearch protocol host inv rid hasPhoto

/-! Decimal round trip: parsing the string Nat.repr produces recovers
the number. This underpins freshness of generated ids. -/

/-- The digit-accumulating step used by String.toNat?. -/
def decStep (a : Nat) (c : Char) : Nat := a * 10 + (c.toNat - '0'.toNat)

theorem toDigitsCore_append (f : Nat) : ∀ (n : Nat) (ds : List Char),
    Nat.toDigitsCore 10 f n ds = Nat.toDigitsCore 10 f n [] ++ ds := by
  induction f with
  | zero => intro n ds; simp [Nat.toDigitsCore]
  | succ f ih =>
    intro n ds
    simp only [Nat.toDigitsCore]
    by_cases h : n / 10 = 0
    · simp [h]
    · simp only [if_neg h]
      rw [ih (n / 10) (Nat.digitChar (n % 10) :: ds), ih (n / 10) [Nat.digitChar (n % 10)]]
      simp

theorem toDigitsCore_fuel (n : Nat) : ∀ f g : Nat, n < f → n < g →
    Nat.toDigitsCore 10 f n [] = Nat.toDigitsCore 10 g n [] := by
  induction n using Nat.strong_induction_on with
  | _ n ih =>
    intro f g hf hg
    match f, g with
    | f + 1, g + 1 =>
      simp only [Nat.toDigitsCore]
      by_cases h : n / 10 = 0
      · simp [h]
      · simp only [if_neg h]
        rw [toDigitsCore_append f, toDigitsCore_append g]
        have hn : 0 < n := by omega
        have hlt : n / 10 < n := Nat.div_lt_self hn (by omega)
        rw [ih (n / 10) hlt f g (by omega) (by omega)]

theorem digitChar_toNat (d : Nat) (h : d < 10) : (Nat.digitChar d).toNat = d + 48 := by
  interval_cases d <;> rfl

theorem digitChar_isDigit (d : Nat) (h : d < 10) : (Nat.digitChar d).isDigit = true := by
  interval_cases d <;> rfl

theorem toDigitsCore_ne_nil (f n : Nat) (h : 0 < f) : Nat.toDigitsCore 10 f n [] ≠ [] := by
  match f with
  | f + 1 =>
    simp only [Nat.toDigitsCore]
    by_cases h10 : n / 10 = 0
    · simp [h10]
    · simp only [if_neg h10]
      rw [toDigitsCore_append]
      simp

/-- Every character Nat.toDigitsCore emits for base 10 is a decimal
digit, and folding decStep over the emitted digits recovers the number
scaled onto the accumulator. -/
theorem toDigitsCore_digits (n : Nat) : ∀ f : Nat, n < f →
    (∀ c ∈ Nat.toDigitsCore 10 f n [], c.isDigit) ∧
    (∀ a : Nat, (Nat.toDigitsCore 10 f n []).foldl decStep a =
      a * 10 ^ (Nat.toDigitsCore 10 f n []).length + n) := by
  induction n using Nat.strong_induction_on with
  | _ n ih =>
    intro f hf
    match f with
    | f + 1 =>
      simp only [Nat.toDigitsCore]
      by_cases h : n / 10 = 0
      · have hn : n < 10 := by omega
        have hmod : n % 10 = n := Nat.mod_eq_of_lt hn
        simp only [if_pos h]
        refine ⟨?_, ?_⟩
        · intro c hc
          simp only [List.mem_singleton] at hc
          subst hc
          exact digitChar_isDigit (n % 10) (Nat.mod_lt n (by omega))
        · intro a
          have h0 : Char.toNat '0' = 48 := rfl
          simp only [List.foldl_cons, List.foldl_nil, List.length_singleton, pow_one,
            decStep, digitChar_toNat (n % 10) (Nat.mod_lt n (by omega)), h0]
          omega
      · have hn10 : 10 ≤ n := by omega
        have hlt : n / 10 < n := Nat.div_lt_self (by omega) (by omega)
        simp only [if_neg h]
        rw [toDigitsCore_append f (n / 10) [Nat.digitChar (n % 10)]]
        obtain ⟨hdig, hval⟩ := ih (n / 10) hlt f (by omega)
        refine ⟨?_, ?_⟩
        · intro c hc
          rcases List.mem_append.mp hc with hc | hc
          · exact hdig c hc
          · simp only [List.mem_singleton] at hc
            subst hc
            exact digitChar_isDigit (n % 10) (Nat.mod_lt n (by omega))
        · intro a
          have h0 : Char.toNat '0' = 48 := rfl
          rw [List.foldl_append, hval a, List.length_append, List.length_singleton]
          simp only [List.foldl_cons, List.foldl_nil, decStep,
            digitChar_toNat (n % 10) (Nat.mod_lt n (by omega)), h0]
          have hpow : 10 ^ ((Nat.toDigitsCore 10 f (n / 10) []).length + 1) =
              10 ^ (Nat.toDigitsCore 10 f (n / 10) []).length * 10 := pow_succ 10 _
          rw [hpow, ← mul_assoc]
          have := Nat.div_add_mod n 10
          set q := a * 10 ^ (Nat.toDigitsCore 10 f (n / 10) []).length with hq
          omega

/-- Parsing the decimal rendering of a natural number recovers it. -/
theorem decNat?_repr (n : Nat) : decNat? (Nat.repr n) = some n := by
  obtain ⟨hdig, hval⟩ := toDigitsCore_digits n (n + 1) (Nat.lt_succ_self n)
  have hne := toDigitsCore_ne_nil (n + 1) n (Nat.succ_pos n)
  have hdata : (Nat.repr n).data = Nat.toDigitsCore 10 (n + 1) n [] := rfl
  unfold decNat?
  rw [hdata, if_neg hne, if_pos (List.all_eq_true.mpr (fun c hc => hdig c hc))]
  rw [show (fun (a : Nat) (c : Char) => a * 10 + (c.toNat - '0'.toNat)) = decStep from rfl]
  rw [hval 0]
  simp

theorem repr_ne_empty (n : Nat) : Nat.repr n ≠ "" := by
  intro h
  have hdata : (Nat.repr n).data = Nat.toDigitsCore 10 (n + 1) n [] := rfl
  rw [h] at hdata
  exact toDigitsCore_ne_nil (n + 1) n (Nat.succ_pos n) hdata.symm

/-- jsNumber inverts the rendering of ids the service generates. -/
theorem jsNumber_repr (k : Nat) : jsNumber (Nat.repr k) = some k := by
  unfold jsNumber
  rw [if_neg (repr_ne_empty k)]
  exact decNat?_repr k

/-- The id-assignment rule as the specification words it: the maximum
numeric id currently present in the collection (0 when it is empty). -/
def specMaxId (inv : List Item) : Nat :=
  (inv.map (fun i => (jsNumber i.id).getD 0)).foldl max 0

theorem foldl_jsMax_eq (inv : List Item) : ∀ a : Nat,
    (∀ i ∈ inv, (jsNumber i.id).isSome) →
    inv.foldl (fun acc item => jsMax acc (jsNumber item.id)) (some a)
      = some ((inv.map (fun i => (jsNumber i.id).getD 0)).foldl max a) := by
  induction inv with
  | nil => intro a _; rfl
  | cons x xs ih =>
    intro a h
    obtain ⟨v, hv⟩ := Option.isSome_iff_exists.mp (h x (List.mem_cons_self x xs))
    simp only [List.foldl_cons, List.map_cons, hv]
    rw [show jsMax (some a) (some v) = some (max a v) from rfl]
    rw [ih (max a v) (fun i hi => h i (List.mem_cons_of_mem x hi))]
    rfl

theorem le_foldl_max (l : List Nat) : ∀ a : Nat, a ≤ l.foldl max a := by
  induction l with
  | nil => intro a; exact le_refl a
  | cons x xs ih => intro a; exact le_trans (le_max_left a x) (ih (max a x))

theorem mem_le_foldl_max (l : List Nat) : ∀ a v : Nat, v ∈ l → v ≤ l.foldl max a := by
  induction l with
  | nil => intro a v hv; cases hv
  | cons x xs ih =>
    intro a v hv
    rcases List.mem_cons.mp hv with rfl | hv
    · exact le_trans (le_max_right a v) (le_foldl_max xs (max a v))
    · exact ih (max a x) v hv

/-- On a collection whose ids all parse as numbers, generateId renders
one plus the maximum numeric id present. -/
theorem generateId_eq (inv : List Item) (h : ∀ i ∈ inv, (jsNumber i.id).isSome) :
    generateId inv = Nat.repr (specMaxId inv + 1) := by
  unfold generateId specMaxId
  rw [foldl_jsMax_eq inv 0 h]

theorem value_le_specMaxId (inv : List Item) (i : Item) (hi : i ∈ inv) (v : Nat)
    (hv : jsNumber i.id = some v) : v ≤ specMaxId inv := by
  unfold specMaxId
  exact mem_le_foldl_max _ 0 v (List.mem_map.mpr ⟨i, hi, by rw [hv]; rfl⟩)

/-- On a collection whose ids all parse as numbers, the generated id
differs from every id present. -/
theorem generateId_fresh (inv : List Item) (h : ∀ i ∈ inv, (jsNumber i.id).isSome) :
    ∀ i ∈ inv, i.id ≠ generateId inv := by
  intro i hi heq
  obtain ⟨v, hv⟩ := Option.isSome_iff_exists.mp (h i hi)
  rw [generateId_eq inv h] at heq
  have hparse : jsNumber i.id = some (specMaxId inv + 1) := by
    rw [heq]; exact jsNumber_repr _
  rw [hv] at hparse
  obtain rfl := Option.some.inj hparse
  have := value_le_specMaxId inv i hi _ hv
  omega

/-! List helper lemmas about the mutation patterns of the handlers. -/

theorem find?_id_eq_none (inv : List Item) (rid : String)
    (h : ∀ i ∈ inv, i.id ≠ rid) :
    inv.find? (fun i => i.id == rid) = none :=
  List.find?_eq_none.mpr (fun x hx => by simpa using h x hx)

theorem find?_updateFirst (rid : String) (f : Item → Item)
    (hf : ∀ it : Item, (f it).id = it.id) :
    ∀ (inv : List Item) (item : Item),
      inv.find? (fun i => i.id == rid) = some item →
      (updateFirst inv rid f).find? (fun i => i.id == rid) = some (f item) := by
  intro inv
  induction inv with
  | nil => intro item h; simp [List.find?] at h
  | cons x xs ih =>
    intro item h
    by_cases hx : (x.id == rid) = true
    · simp only [List.find?, hx] at h
      obtain rfl := Option.some.inj h
      unfold updateFirst
      rw [if_pos hx]
      have hfx : ((f x).id == rid) = true := by rw [hf x]; exact hx
      simp only [List.find?, hfx]
    · simp only [List.find?, Bool.eq_false_iff.mpr hx] at h
      unfold updateFirst
      rw [if_neg hx]
      simp only [List.find?, Bool.eq_false_iff.mpr hx]
      exact ih item h

theorem updateFirst_map_id (rid : String) (f : Item → Item)
    (hf : ∀ it : Item, (f it).id = it.id) :
    ∀ inv : List Item, (updateFirst inv rid f).map Item.id = inv.map Item.id := by
  intro inv
  induction inv with
  | nil => rfl
  | cons x xs ih =>
    unfold updateFirst
    by_cases hx : (x.id == rid) = true
    · rw [if_pos hx]; simp [hf x]
    · rw [if_neg hx]; simp only [List.map_cons, ih]

theorem updateFirst_id_fun (rid : String) : ∀ inv : List Item,
    updateFirst inv rid (fun it => it) = inv := by
  intro inv
  induction inv with
  | nil => rfl
  | cons x xs ih =>
    unfold updateFirst
    by_cases hx : (x.id == rid) = true
    · rw [if_pos hx]
    · rw [if_neg hx, ih]

theorem removeFirst_sublist (rid : String) : ∀ inv : List Item,
    List.Sublist (removeFirst inv rid) inv := by
  intro inv
  induction inv with
  | nil => exact List.Sublist.refl []
  | cons x xs ih =>
    unfold removeFirst
    by_cases hx : (x.id == rid) = true
    · rw [if_pos hx]; exact List.sublist_cons_self x xs
    · rw [if_neg hx]; exact List.Sublist.cons₂ x ih

theorem applyUpdate_none (item : Item) : applyUpdate ⟨none, none⟩ item = item := rfl

/-- Reduction of POST /register when the supplied name does not trim to
the empty string: the 201 branch is taken verbatim. -/
theorem postRegister_201 (protocol host : String) (inv : List Item)
    (req : RegisterRequest) (name : String)
    (hname : req.inventory_name = some name) (htrim : jsTrim name ≠ "") :
    postRegister protocol host inv req =
      ⟨201,
        some ⟨generateId inv, name, req.description.getD "",
          if jsStrTruthy req.file then some (photoURL protocol host (generateId inv))
          else none⟩,
        inv ++ [⟨generateId inv, name, req.description.getD "", req.file⟩], true⟩ := by
  have hne : name ≠ "" := fun he => htrim (by rw [he]; decide)
  have hcond : (name == "" || jsTrim name == "") = false := by
    simp [hne, htrim]
  unfold postRegister
  rw [hname]
  simp only [hcond, Bool.false_eq_true, if_false]

/-- Claim C1, counterexample. The claim asserts that every request
whose name field is a non-empty string yields 201 with a fresh positive
decimal id. The code refutes both parts: the name consisting of a
single space is a non-empty string, yet registration answers 400
(the handler also rejects names that trim to empty); and on a
collection holding an item with id NaN, the assigned id is the string
NaN, which is not a decimal numeral and moreover collides with the id
already present. -/
theorem C1_counterexample :
    (postRegister "http" "h" [] ⟨some " ", none, none⟩).status = 400
    ∧ (postRegister "http" "h" [⟨"NaN", "a", "", none⟩]
        ⟨some "b", none, none⟩).body.map ItemDTO.id = some "NaN"
    ∧ ("NaN" : String) = Item.id ⟨"NaN", "a", "", none⟩ := by decide

/-- Claim C1 (amended): for every request whose name field is a string
that does not trim to the empty string, against a collection all of
whose ids parse as numbers, registration succeeds with 201 and the
returned id is the decimal representation of a strictly positive
integer that differs from the id of every item currently in the
collection. -/
theorem C1_register_success_fresh_id (protocol host : String) (inv : List Item)
    (req : RegisterRequest) (name : String)
    (hname : req.inventory_name = some name) (htrim : jsTrim name ≠ "")
    (hids : ∀ i ∈ inv, (jsNumber i.id).isSome) :
    (postRegister protocol host inv req).status = 201
    ∧ ∃ n : Nat, 0 < n
        ∧ (postRegister protocol host inv req).body.map ItemDTO.id = some (Nat.repr n)
        ∧ ∀ i ∈ inv, i.id ≠ Nat.repr n := by
  rw [postRegister_201 protocol host inv req name hname htrim]
  refine ⟨rfl, specMaxId inv + 1, Nat.succ_pos _, ?_, ?_⟩
  · rw [show (⟨201, some ⟨generateId inv, name, req.description.getD "",
        if jsStrTruthy req.file then some (photoURL protocol host (generateId inv))
        else none⟩,
        inv ++ [⟨generateId inv, name, req.description.getD "", req.file⟩], true⟩ :
          ApiResult).body.map ItemDTO.id = some (generateId inv) from rfl]
    rw [generateId_eq inv hids]
  · intro i hi
    have hfresh := generateId_fresh inv hids i hi
    rw [generateId_eq inv hids] at hfresh
    exact hfresh

/-- Witness for the amended claim C1 at a concrete input. -/
theorem C1_register_success_fresh_id_witness :
    jsTrim "Widget" ≠ ""
    ∧ (∀ i ∈ ([⟨"1", "a", "", none⟩] : List Item), (jsNumber i.id).isSome)
    ∧ ((postRegister "http" "h" [⟨"1", "a", "", none⟩]
          ⟨some "Widget", none, none⟩).status = 201
        ∧ ∃ n : Nat, 0 < n
          ∧ (postRegister "http" "h" [⟨"1", "a", "", none⟩]
              ⟨some "Widget", none, none⟩).body.map ItemDTO.id = some (Nat.repr n)
          ∧ ∀ i ∈ ([⟨"1", "a", "", none⟩] : List Item), i.id ≠ Nat.repr n) :=
  ⟨by decide, by decide,
    C1_register_success_fresh_id "http" "h" [⟨"1", "a", "", none⟩]
      ⟨some "Widget", none, none⟩ "Widget" rfl (by decide) (by decide)⟩

/-- Claim C2, counterexample. The claim quantifies over every state of
the collection. On the collection holding a single item with id NaN,
the code assigns the id NaN, while one plus the maximum numeric id
present renders as the string 1 — so the assigned id is not one plus
the maximum numeric id present. -/
theorem C2_counterexample :
    generateId [⟨"NaN", "a", "", none⟩] = "NaN"
    ∧ Nat.repr (specMaxId [⟨"NaN", "a", "", none⟩] + 1) = "1"
    ∧ ("NaN" : String) ≠ "1" := by decide

/-- Claim C2 (amended): on every collection whose ids all parse as
numbers, the id assigned by Create equals one plus the maximum numeric
id currently present (1 when the collection is empty), recomputed from
the current collection each time; in particular, after creating items
with ids 1, 2, 3 and deleting id 3, the next creation is assigned id 3
again. -/
theorem C2_next_id_formula (protocol host : String) (inv : List Item)
    (req : RegisterRequest) (name : String)
    (hname : req.inventory_name = some name) (htrim : jsTrim name ≠ "")
    (hids : ∀ i ∈ inv, (jsNumber i.id).isSome) :
    ((postRegister protocol host inv req).body.map ItemDTO.id
        = some (Nat.repr (specMaxId inv + 1)))
    ∧ generateId [] = "1"
    ∧ (let r1 := postRegister "http" "h" [] ⟨some "a", none, none⟩
       let r2 := postRegister "http" "h" r1.inventory ⟨some "b", none, none⟩
       let r3 := postRegister "http" "h" r2.inventory ⟨some "c", none, none⟩
       let d := deleteInventoryId r3.inventory "3"
       let r4 := postRegister "http" "h" d.inventory ⟨some "d", none, none⟩
       r1.body.map ItemDTO.id = some "1" ∧ r2.body.map ItemDTO.id = some "2"
         ∧ r3.body.map ItemDTO.id = some "3" ∧ d.status = 200
         ∧ r4.body.map ItemDTO.id = some "3") := by
  refine ⟨?_, by decide, by decide⟩
  rw [postRegister_201 protocol host inv req name hname htrim]
  rw [show (⟨201, some ⟨generateId inv, name, req.description.getD "",
      if jsStrTruthy req.file then some (photoURL protocol host (generateId inv))
      else none⟩,
      inv ++ [⟨generateId inv, name, req.description.getD "", req.file⟩], true⟩ :
        ApiResult).body.map ItemDTO.id = some (generateId inv) from rfl]
  rw [generateId_eq inv hids]

/-- Witness for the amended claim C2 at a concrete input. -/
theorem C2_next_id_formula_witness :
    jsTrim "b" ≠ ""
    ∧ (∀ i ∈ ([⟨"2", "a", "", none⟩] : List Item), (jsNumber i.id).isSome)
    ∧ (((postRegister "http" "h" [⟨"2", "a", "", none⟩]
          ⟨some "b", none, none⟩).body.map ItemDTO.id
        = some (Nat.repr (specMaxId [⟨"2", "a", "", none⟩] + 1)))
      ∧ generateId [] = "1"
      ∧ (let r1 := postRegister "http" "h" [] ⟨some "a", none, none⟩
         let r2 := postRegister "http" "h" r1.inventory ⟨some "b", none, none⟩
         let r3 := postRegister "http" "h" r2.inventory ⟨some "c", none, none⟩
         let d := deleteInventoryId r3.inventory "3"
         let r4 := postRegister "http" "h" d.inventory ⟨some "d", none, none⟩
         r1.body.map ItemDTO.id = some "1" ∧ r2.body.map ItemDTO.id = some "2"
           ∧ r3.body.map ItemDTO.id = some "3" ∧ d.status = 200
           ∧ r4.body.map ItemDTO.id = some "3")) :=
  ⟨by decide, by decide,
    C2_next_id_formula "http" "h" [⟨"2", "a", "", none⟩] ⟨some "b", none, none⟩ "b"
      rfl (by decide) (by decide)⟩

/-- Reduction of POST /register when the supplied name is falsy or
trims to the empty string: the 400 branch is taken and nothing
changes. -/
theorem postRegister_400 (protocol host : String) (inv : List Item)
    (req : RegisterRequest) (name : String)
    (hname : req.inventory_name = some name)
    (hc : (name == "" || jsTrim name == "") = true) :
    postRegister protocol host inv req = ⟨400, none, inv, false⟩ := by
  unfold postRegister
  rw [hname]
  simp only [hc, if_true]

/-- Claim C3, counterexample. The claim asserts that every operation
preserves pairwise distinctness of ids on any collection that starts
with pairwise-distinct ids. The singleton collection holding an item
with id NaN has pairwise-distinct ids, yet Create assigns the id NaN
again (Math.max over a NaN operand is NaN), so afterwards two items
share the id NaN. -/
theorem C3_counterexample :
    (([⟨"NaN", "a", "", none⟩] : List Item).map Item.id).Nodup
    ∧ ¬ (((postRegister "http" "h" [⟨"NaN", "a", "", none⟩]
        ⟨some "b", none, none⟩).inventory.map Item.id).Nodup) := by decide

/-- Claim C3 (amended): starting from a collection with
pairwise-distinct ids all of which parse as numbers, every operation
(Create, Update, Delete, ReplacePhoto, Search) preserves the property
that every item has a unique id, and no operation changes the id of an
existing item: Update, ReplacePhoto and Search leave the id sequence
exactly as it was, Create appends to it, and Delete leaves a
subsequence of it. -/
theorem C3_id_uniqueness_invariant (protocol host : String) (inv : List Item)
    (hnodup : (inv.map Item.id).Nodup)
    (hids : ∀ i ∈ inv, (jsNumber i.id).isSome) :
    (∀ req : RegisterRequest,
        ((postRegister protocol host inv req).inventory.map Item.id).Nodup
        ∧ ∃ tail, (postRegister protocol host inv req).inventory.map Item.id
            = inv.map Item.id ++ tail)
    ∧ (∀ rid body, (putInventoryId protocol host inv rid body).inventory.map Item.id
        = inv.map Item.id)
    ∧ (∀ rid : String, ((deleteInventoryId inv rid).inventory.map Item.id).Nodup
        ∧ List.Sublist ((deleteInventoryId inv rid).inventory.map Item.id)
            (inv.map Item.id))
    ∧ (∀ rid file, (putPhoto inv rid file).inventory.map Item.id = inv.map Item.id)
    ∧ (∀ rid hp, (postSearch protocol host inv rid hp).inventory.map Item.id
        = inv.map Item.id) := by
  refine ⟨?_, ?_, ?_, ?_, ?_⟩
  · intro req
    match hname : req.inventory_name with
    | none =>
      unfold postRegister
      rw [hname]
      exact ⟨hnodup, [], by simp⟩
    | some name =>
      by_cases hc : (name == "" || jsTrim name == "") = true
      · rw [postRegister_400 protocol host inv req name hname hc]
        exact ⟨hnodup, [], by simp⟩
      · have htrim : jsTrim name ≠ "" := by
          intro he
          exact hc (by simp [he])
        rw [postRegister_201 protocol host inv req name hname htrim]
        have hmap : (inv ++ [(⟨generateId inv, name, req.description.getD "",
            req.file⟩ : Item)]).map Item.id = inv.map Item.id ++ [generateId inv] := by
          simp
        refine ⟨?_, [generateId inv], hmap⟩
        rw [show (⟨201, some ⟨generateId inv, name, req.description.getD "",
            if jsStrTruthy req.file then some (photoURL protocol host (generateId inv))
            else none⟩,
            inv ++ [⟨generateId inv, name, req.description.getD "", req.file⟩], true⟩ :
              ApiResult).inventory
            = inv ++ [⟨generateId inv, name, req.description.getD "", req.file⟩] from rfl]
        rw [hmap]
        rw [List.nodup_append]
        refine ⟨hnodup, List.nodup_singleton _, ?_⟩
        intro a ha hb

        rcases List.mem_map.mp ha with ⟨i, hi, rfl⟩
        exact generateId_fresh inv hids i hi (List.mem_singleton.mp hb)
  · intro rid body
    unfold putInventoryId
    cases hfind : inv.find? (fun i => i.id == rid) with
    | none => rfl
    | some item =>
      exact updateFirst_map_id rid (applyUpdate body) (fun it => rfl) inv
  · intro rid
    unfold deleteInventoryId
    cases hfind : inv.find? (fun i => i.id == rid) with
    | none => exact ⟨hnodup, List.Sublist.refl _⟩
    | some item =>
      have hsub := List.Sublist.map Item.id (removeFirst_sublist rid inv)
      exact ⟨hnodup.sublist hsub, hsub⟩
  · intro rid file
    unfold putPhoto
    cases hfind : inv.find? (fun i => i.id == rid) with
    | none => rfl
    | some item =>
      cases file with
      | none => rfl
      | some f =>
        exact updateFirst_map_id rid (fun it => { it with photoFilename := some f })
          (fun it => rfl) inv
  · intro rid hp
    unfold postSearch
    cases hfind : inv.find? (searchPred rid) with
    | none => rfl
    | some item =>
      by_cases hcond : (jsStrTruthy hp &&
          (if jsStrTruthy item.photoFilename then
            some (photoURL protocol host item.id) else none).isSome) = true
      · simp only [hcond, if_true]
        exact updateFirst_map_id item.id
          (fun it => { it with description := item.description ++ "\nPhoto: " ++
            (if jsStrTruthy item.photoFilename then
              some (photoURL protocol host item.id) else none).getD "" })
          (fun it => rfl) inv
      · simp only [Bool.eq_false_iff.mpr hcond, Bool.false_eq_true, if_false]

/-- Witness for the amended claim C3 at a concrete input. -/
theorem C3_id_uniqueness_invariant_witness :
    (([⟨"1", "a", "", none⟩] : List Item).map Item.id).Nodup
    ∧ (∀ i ∈ ([⟨"1", "a", "", none⟩] : List Item), (jsNumber i.id).isSome)
    ∧ ((postRegister "http" "h" [⟨"1", "a", "", none⟩]
        ⟨some "b", none, none⟩).inventory.map Item.id).Nodup :=
  ⟨by decide, by decide,
    ((C3_id_uniqueness_invariant "http" "h" [⟨"1", "a", "", none⟩]
        (by decide) (by decide)).1 ⟨some "b", none, none⟩).1⟩

theorem searchPred_some (s : String) : searchPred (some s) = fun i => i.id == s := rfl

/-- Claim C4: on a search with a truthy has_photo flag for an item
whose photo reference names a blob that resolves on disk, the handler
answers 200 with the stored description followed by a newline and the
text Photo: plus the computed photo URL, that value overwrites the
stored description, the collection is saved, and a subsequent plain GET
of the item returns the mutated description. (The code never consults
the disk here, so the conclusion holds for a resolvable blob in
particular.) -/
theorem C4_search_side_effect (protocol host : String) (blobExists : String → Bool)
    (inv : List Item) (item : Item) (f : String) (flag : Option String)
    (hfind : inv.find? (fun i => i.id == item.id) = some item)
    (hpf : item.photoFilename = some f) (hfne : f ≠ "") (_hblob : blobExists f = true)
    (hflag : jsStrTruthy flag = true) :
    (postSearch protocol host inv (some item.id) flag).status = 200
    ∧ (postSearch protocol host inv (some item.id) flag).body
        = some ⟨item.id, item.inventory_name,
            item.description ++ "\nPhoto: " ++ photoURL protocol host item.id,
            some (photoURL protocol host item.id)⟩
    ∧ (postSearch protocol host inv (some item.id) flag).saved = true
    ∧ getInventoryId protocol host
          (postSearch protocol host inv (some item.id) flag).inventory item.id
        = (200, some ⟨item.id, item.inventory_name,
            item.description ++ "\nPhoto: " ++ photoURL protocol host item.id,
            some (photoURL protocol host item.id)⟩) := by
  have htruthy : jsStrTruthy item.photoFilename = true := by
    rw [hpf]
    simp [jsStrTruthy, hfne]
  have hred : postSearch protocol host inv (some item.id) flag =
      ⟨200, some ⟨item.id, item.inventory_name,
          item.description ++ "\nPhoto: " ++ photoURL protocol host item.id,
          some (photoURL protocol host item.id)⟩,
        updateFirst inv item.id (fun it =>
          { it with description :=
              item.description ++ "\nPhoto: " ++ photoURL protocol host item.id }),
        true⟩ := by
    unfold postSearch
    rw [searchPred_some, hfind]
    simp only [htruthy, if_true, hflag, Option.isSome_some, Bool.and_self, if_true,
      Option.getD_some]
  refine ⟨by rw [hred], by rw [hred], by rw [hred], ?_⟩
  rw [hred]
  unfold getInventoryId
  rw [find?_updateFirst item.id
    (fun it => { it with description :=
        item.description ++ "\nPhoto: " ++ photoURL protocol host item.id })
    (fun it => rfl) inv item hfind]
  unfold itemToDTO
  simp only [htruthy, if_true]

/-- Witness for claim C4 at a concrete input. -/
theorem C4_search_side_effect_witness :
    ([⟨"1", "n", "d", some "p"⟩] : List Item).find? (fun i => i.id == "1")
        = some ⟨"1", "n", "d", some "p"⟩
    ∧ ("p" : String) ≠ "" ∧ (fun _ : String => true) "p" = true
    ∧ jsStrTruthy (some "on") = true
    ∧ ((postSearch "http" "h" [⟨"1", "n", "d", some "p"⟩] (some "1") (some "on")).status
        = 200
      ∧ (postSearch "http" "h" [⟨"1", "n", "d", some "p"⟩] (some "1")
            (some "on")).body
          = some ⟨"1", "n", "d" ++ "\nPhoto: " ++ photoURL "http" "h" "1",
              some (photoURL "http" "h" "1")⟩
      ∧ (postSearch "http" "h" [⟨"1", "n", "d", some "p"⟩] (some "1")
            (some "on")).saved = true
      ∧ getInventoryId "http" "h"
            (postSearch "http" "h" [⟨"1", "n", "d", some "p"⟩] (some "1")
              (some "on")).inventory "1"
          = (200, some ⟨"1", "n", "d" ++ "\nPhoto: " ++ photoURL "http" "h" "1",
              some (photoURL "http" "h" "1")⟩)) :=
  ⟨by decide, by decide, rfl, by decide,
    C4_search_side_effect "http" "h" (fun _ => true) [⟨"1", "n", "d", some "p"⟩]
      ⟨"1", "n", "d", some "p"⟩ "p" (some "on") (by decide) rfl (by decide) rfl rfl⟩

/-- Claim C5, counterexample. The claim asserts that a search request
omitting the identifier fails with 400; the handler has no such
validation branch, and on a concrete collection the request with no id
field answers 404 instead (strict equality against undefined matches no
item, so the not-found branch runs). -/
theorem C5_counterexample :
    (postSearch "http" "h" [⟨"1", "a", "", none⟩] none none).status = 404
    ∧ ¬ (postSearch "http" "h" [⟨"1", "a", "", none⟩] none none).status = 400 := by
  decide

/-- Claim C5 (amended): a search request that omits the identifier
field is answered 404 NotFound, leaving the collection untouched and
unsaved — the same outcome as a request whose identifier matches no
item; the handler performs no missing-identifier validation and never
answers 400. -/
theorem C5_search_missing_id (protocol host : String) (inv : List Item)
    (flag : Option String) :
    postSearch protocol host inv none flag = ⟨404, none, inv, false⟩
    ∧ ∀ rid : String, (∀ i ∈ inv, i.id ≠ rid) →
        postSearch protocol host inv (some rid) flag = ⟨404, none, inv, false⟩ := by
  constructor
  · unfold postSearch
    rw [show inv.find? (searchPred none) = none from
      List.find?_eq_none.mpr (fun x _ => by simp [searchPred])]
  · intro rid h
    unfold postSearch
    rw [searchPred_some, find?_id_eq_none inv rid h]

/-- Witness for the amended claim C5 at a concrete input. -/
theorem C5_search_missing_id_witness :
    postSearch "http" "h" [⟨"1", "a", "", none⟩] none none
        = ⟨404, none, [⟨"1", "a", "", none⟩], false⟩
    ∧ (∀ i ∈ ([⟨"1", "a", "", none⟩] : List Item), i.id ≠ "2")
    ∧ postSearch "http" "h" [⟨"1", "a", "", none⟩] (some "2") none
        = ⟨404, none, [⟨"1", "a", "", none⟩], false⟩ :=
  ⟨(C5_search_missing_id "http" "h" [⟨"1", "a", "", none⟩] none).1, by decide,
    (C5_search_missing_id "http" "h" [⟨"1", "a", "", none⟩] none).2 "2" (by decide)⟩

/-- Claim C6, counterexample. The claim asserts the search operation is
reachable by GET and never answers 405 to it; the route stack guards
/search with an allow-list containing only POST, so a GET request on a
concrete collection holding the item with the searched id receives
405 Method not allowed. -/
theorem C6_counterexample :
    (searchRoute "http" "h" [⟨"1", "a", "", none⟩] "GET" (some "1") none).status
      = 405 := by decide

/-- Claim C6 (amended): the search operation is reachable only by POST,
with identifier and flag taken from the form body; a GET request to
/search receives 405 MethodNotAllowed from the method guard, while a
POST request is dispatched to the search handler. -/
theorem C6_search_post_only (protocol host : String) (inv : List Item)
    (rid hp : Option String) :
    searchRoute protocol host inv "GET" rid hp = ⟨405, none, inv, false⟩
    ∧ searchRoute protocol host inv "POST" rid hp
        = postSearch protocol host inv rid hp := by
  exact ⟨rfl, rfl⟩

/-- Claim C7: for an existing item, an update supplying only the
description leaves the name and the photo reference unchanged, an
update supplying only the name leaves the description unchanged, and an
update supplying neither field changes nothing and still answers 200
with the current values. -/
theorem C7_update_frame (protocol host : String) (inv : List Item) (item : Item)
    (hfind : inv.find? (fun i => i.id == item.id) = some item) :
    (∀ d : String,
        putInventoryId protocol host inv item.id ⟨none, some d⟩
          = ⟨200, some (itemToDTO protocol host { item with description := d }),
              updateFirst inv item.id (applyUpdate ⟨none, some d⟩), true⟩
        ∧ (updateFirst inv item.id (applyUpdate ⟨none, some d⟩)).find?
            (fun i => i.id == item.id) = some { item with description := d })
    ∧ (∀ nm : String,
        putInventoryId protocol host inv item.id ⟨some nm, none⟩
          = ⟨200, some (itemToDTO protocol host { item with inventory_name := nm }),
              updateFirst inv item.id (applyUpdate ⟨some nm, none⟩), true⟩
        ∧ (updateFirst inv item.id (applyUpdate ⟨some nm, none⟩)).find?
            (fun i => i.id == item.id) = some { item with inventory_name := nm })
    ∧ putInventoryId protocol host inv item.id ⟨none, none⟩
        = ⟨200, some (itemToDTO protocol host item), inv, true⟩ := by
  have hid : applyUpdate ⟨none, none⟩ = fun it => it := funext fun it => rfl
  refine ⟨?_, ?_, ?_⟩
  · intro d
    constructor
    · unfold putInventoryId
      rw [hfind]
      exact rfl
    · exact find?_updateFirst item.id (applyUpdate ⟨none, some d⟩) (fun it => rfl)
        inv item hfind
  · intro nm
    constructor
    · unfold putInventoryId
      rw [hfind]
      exact rfl
    · exact find?_updateFirst item.id (applyUpdate ⟨some nm, none⟩) (fun it => rfl)
        inv item hfind
  · unfold putInventoryId
    rw [hfind, hid, updateFirst_id_fun]

/-- Witness for claim C7 at a concrete input. -/
theorem C7_update_frame_witness :
    ([⟨"1", "nm", "d", some "p"⟩] : List Item).find? (fun i => i.id == "1")
        = some ⟨"1", "nm", "d", some "p"⟩
    ∧ putInventoryId "http" "h" [⟨"1", "nm", "d", some "p"⟩] "1" ⟨none, none⟩
        = ⟨200, some (itemToDTO "http" "h" ⟨"1", "nm", "d", some "p"⟩),
            [⟨"1", "nm", "d", some "p"⟩], true⟩
    ∧ (updateFirst [⟨"1", "nm", "d", some "p"⟩] "1"
          (applyUpdate ⟨none, some "e"⟩)).find? (fun i => i.id == "1")
        = some ⟨"1", "nm", "e", some "p"⟩ :=
  ⟨by decide,
    (C7_update_frame "http" "h" [⟨"1", "nm", "d", some "p"⟩] ⟨"1", "nm", "d", some "p"⟩
      (by decide)).2.2,
    ((C7_update_frame "http" "h" [⟨"1", "nm", "d", some "p"⟩] ⟨"1", "nm", "d", some "p"⟩
      (by decide)).1 "e").2⟩

/-- Claim C8: deleting an id that matches no item answers 404, the
collection is identical before and after, nothing is saved, and no blob
unlink is requested. -/
theorem C8_delete_missing_id (inv : List Item) (rid : String)
    (h : ∀ i ∈ inv, i.id ≠ rid) :
    deleteInventoryId inv rid = ⟨404, inv, false, none⟩ := by
  unfold deleteInventoryId
  rw [find?_id_eq_none inv rid h]

/-- Witness for claim C8 at a concrete input. -/
theorem C8_delete_missing_id_witness :
    (∀ i ∈ ([⟨"1", "a", "", some "p"⟩] : List Item), i.id ≠ "2")
    ∧ deleteInventoryId [⟨"1", "a", "", some "p"⟩] "2"
        = ⟨404, [⟨"1", "a", "", some "p"⟩], false, none⟩ :=
  ⟨by decide, C8_delete_missing_id [⟨"1", "a", "", some "p"⟩] "2" (by decide)⟩

/-- Claim C9: photo retrieval answers only 200 or 404, and each of the
three failure cases — no item with the id, an item without a photo
reference, and an item whose referenced blob is absent from storage —
yields the same 404 outcome. -/
theorem C9_photo_not_found (blobExists : String → Bool) (inv : List Item)
    (rid : String) :
    ((getPhoto blobExists inv rid).1 = 200 ∨ (getPhoto blobExists inv rid).1 = 404)
    ∧ ((∀ i ∈ inv, i.id ≠ rid) → getPhoto blobExists inv rid = (404, none))
    ∧ (∀ item : Item, inv.find? (fun i => i.id == rid) = some item →
        item.photoFilename = none → getPhoto blobExists inv rid = (404, none))
    ∧ (∀ (item : Item) (f : String), inv.find? (fun i => i.id == rid) = some item →
        item.photoFilename = some f → blobExists f = false →
        getPhoto blobExists inv rid = (404, none)) := by
  refine ⟨?_, ?_, ?_, ?_⟩
  · unfold getPhoto
    cases hfind : inv.find? (fun i => i.id == rid) with
    | none => exact Or.inr rfl
    | some item =>
      by_cases hp : (!jsStrTruthy item.photoFilename) = true
      · simp only [hp, if_true]
        exact Or.inr trivial
      · simp only [Bool.eq_false_iff.mpr hp, Bool.false_eq_true, if_false]
        by_cases hb : blobExists (item.photoFilename.getD "") = true
        · simp only [hb, if_true]
          exact Or.inl trivial
        · simp only [Bool.eq_false_iff.mpr hb, Bool.false_eq_true, if_false]
          exact Or.inr trivial
  · intro h
    unfold getPhoto
    rw [find?_id_eq_none inv rid h]
  · intro item hfind hnone
    unfold getPhoto
    rw [hfind]
    simp [jsStrTruthy, hnone]
  · intro item f hfind hf hb
    unfold getPhoto
    rw [hfind]
    by_cases hfe : f = ""
    · subst hfe
      simp [jsStrTruthy, hf]
    · have h1 : jsStrTruthy (some f) = true := by simp [jsStrTruthy, hfe]
      simp only [hf, h1, Bool.not_true, Bool.false_eq_true, if_false,
        Option.getD_some, hb]

/-- Witness for claim C9 at concrete inputs covering the three failure
cases. -/
theorem C9_photo_not_found_witness :
    (∀ i ∈ ([⟨"1", "a", "", some "p"⟩] : List Item), i.id ≠ "9")
    ∧ getPhoto (fun _ => false) [⟨"1", "a", "", some "p"⟩] "9" = (404, none)
    ∧ getPhoto (fun _ => false) [⟨"2", "b", "", none⟩] "2" = (404, none)
    ∧ getPhoto (fun _ => false) [⟨"1", "a", "", some "p"⟩] "1" = (404, none) :=
  ⟨by decide,
    (C9_photo_not_found (fun _ => false) [⟨"1", "a", "", some "p"⟩] "9").2.1 (by decide),
    (C9_photo_not_found (fun _ => false) [⟨"2", "b", "", none⟩] "2").2.2.1
      ⟨"2", "b", "", none⟩ (by decide) rfl,
    (C9_photo_not_found (fun _ => false) [⟨"1", "a", "", some "p"⟩] "1").2.2.2
      ⟨"1", "a", "", some "p"⟩ "p" (by decide) rfl rfl⟩

/-- Claim C10: replacing the photo of an id that matches no item
answers 404 whatever the uploaded file situation is — the
item-existence check runs before the missing-file check, so an unknown
id with no file yields 404, not 400. -/
theorem C10_photo_put_missing_item (inv : List Item) (rid : String)
    (file : Option String) (h : ∀ i ∈ inv, i.id ≠ rid) :
    putPhoto inv rid file = ⟨404, inv, false⟩ := by
  unfold putPhoto
  rw [find?_id_eq_none inv rid h]

/-- Witness for claim C10 at a concrete input with no uploaded file. -/
theorem C10_photo_put_missing_item_witness :
    (∀ i ∈ ([⟨"1", "a", "", none⟩] : List Item), i.id ≠ "7")
    ∧ putPhoto [⟨"1", "a", "", none⟩] "7" none = ⟨404, [⟨"1", "a", "", none⟩], false⟩ :=
  ⟨by decide, C10_photo_put_missing_item [⟨"1", "a", "", none⟩] "7" none (by decide)⟩

end InventoryService
